import Mathlib

/-!
# Verification of the mozility-tracker offline capture-and-sync engine

Shallow embedding of the engine logic in `src/App.js` (the three SQLite
tables `locations`, `sync_queue`, `app_logs` and the operations
`initDatabase`, `logToDatabase`, `saveLocation`, `syncData`,
`clearDatabase`, `loadStats`).  SQL rows become Lean structures, the
database becomes explicit state, and each `async` function becomes a pure
state-transforming function.  `REAL` columns are modelled as `Rat`
(coordinates are only stored and echoed, never arithmetically combined),
`INTEGER` columns as `Nat`/`Int`.

Two SQLite details are modelled faithfully because claims hinge on them:
* the parameterized `DELETE FROM sync_queue ... record_id IN (?)` binds a
  single comma-joined string; SQLite compares the INTEGER column with the
  TEXT value by applying numeric affinity to the text, which succeeds only
  for a well-formed integer literal (`numericAffinity` below);
* the React `useState` handle: a function closure created in a render
  captures the `database` value of that render, so `logToDatabase` invoked
  from `initDatabase` still sees the pre-`setDatabase` value (`none`).
-/

namespace Mozility

/-- A raw location fix as delivered by the location source
(`location.coords` plus `location.timestamp` in the source). -/
structure Fix where
  latitude : Rat
  longitude : Rat
  accuracy : Option Rat
  altitude : Option Rat
  speed : Option Rat
  heading : Option Rat
  timestamp : Int
deriving Repr, DecidableEq

/-- One row of the `locations` table (App.js:62-73).  `synced` is the
INTEGER 0/1 flag; `created_at` (a DATETIME default never read by the
engine logic) is omitted. -/
structure LocationRow where
  id : Nat
  latitude : Rat
  longitude : Rat
  accuracy : Option Rat
  altitude : Option Rat
  speed : Option Rat
  heading : Option Rat
  timestamp : Int
  synced : Nat
deriving Repr, DecidableEq

/-- One row of the `sync_queue` table (App.js:75-81). -/
structure SyncQueueRow where
  id : Nat
  table_name : String
  record_id : Nat
  operation : String
deriving Repr, DecidableEq

/-- One row of the `app_logs` table (App.js:83-88). -/
structure AppLogRow where
  message : String
  level : String
deriving Repr, DecidableEq

/-- The durable state of `tracker.db`: the three tables plus the
AUTOINCREMENT counters of `locations` and `sync_queue`. -/
structure DBState where
  locations : List LocationRow
  sync_queue : List SyncQueueRow
  app_logs : List AppLogRow
  nextLocId : Nat
  nextQueueId : Nat
deriving Repr, DecidableEq

/-- A freshly created database: empty tables, AUTOINCREMENT starts at 1. -/
def emptyDB : DBState := ⟨[], [], [], 1, 1⟩

/-- The in-process engine state: whether the React `database` handle is
set, the `isOnline` flag, and the durable database content (which exists
whether or not the process holds a handle to it). -/
structure AppState where
  database : Bool
  isOnline : Bool
  db : DBState
deriving Repr, DecidableEq

/-- `logToDatabase` (App.js:187-199): `if (!database) return;` else insert
into `app_logs`.  `handleSet` is the `database` value captured by the
closure that is being invoked. -/
def logToDatabase (handleSet : Bool) (db : DBState) (message level : String) :
    DBState :=
  if handleSet then { db with app_logs := db.app_logs ++ [⟨message, level⟩] }
  else db

/-- The state at first render: no database handle yet
(`useState(null)`, App.js:29), `isOnline` initially `true`
(`useState(true)`, App.js:26), and a fresh database file. -/
def initialAppState : AppState := ⟨false, true, emptyDB⟩

/-- `initDatabase` (App.js:55-96): open the database, `setDatabase(db)`,
create the tables, then call `logToDatabase("Database initialized
successfully")`.  The `logToDatabase` closure was created in the same
render as `initDatabase`, so it still sees the `database` value from
before `setDatabase` ran (`captured`). -/
def initDatabase (s : AppState) : AppState :=
  let captured := s.database
  let s1 : AppState := { s with database := true }
  { s1 with
    db := logToDatabase captured s1.db "Database initialized successfully" "info" }

/-- `saveLocation` (App.js:315-350): `if (!database) return;` else INSERT
the row into `locations` (with `synced = 0`), INSERT the matching
`sync_queue` row (`["locations", lastInsertRowId, "INSERT"]`), then log
"Location saved: ...". -/
def saveLocation (s : AppState) (loc : Fix) : AppState :=
  if s.database then
    let row : LocationRow :=
      ⟨s.db.nextLocId, loc.latitude, loc.longitude, loc.accuracy, loc.altitude,
        loc.speed, loc.heading, loc.timestamp, 0⟩
    let qrow : SyncQueueRow :=
      ⟨s.db.nextQueueId, "locations", s.db.nextLocId, "INSERT"⟩
    let db1 : DBState :=
      { s.db with
        locations := s.db.locations ++ [row]
        nextLocId := s.db.nextLocId + 1
        sync_queue := s.db.sync_queue ++ [qrow]
        nextQueueId := s.db.nextQueueId + 1 }
    { s with
      db := logToDatabase s.database db1
        ("Location saved: " ++ toString loc.latitude ++ ", " ++
          toString loc.longitude) "info" }
  else s

/-- The `ORDER BY timestamp ASC` comparison on `locations` rows. -/
def tsLe (a b : LocationRow) : Prop := a.timestamp ≤ b.timestamp

instance : DecidableRel tsLe := fun a b =>
  inferInstanceAs (Decidable (a.timestamp ≤ b.timestamp))

instance : IsTotal LocationRow tsLe := ⟨fun a b => Int.le_total a.timestamp b.timestamp⟩

instance : IsTrans LocationRow tsLe := ⟨fun _ _ _ h₁ h₂ => le_trans h₁ h₂⟩

/-- The `WHERE synced = 0` filter on the `locations` table. -/
def pendingRows (l : List LocationRow) : List LocationRow :=
  l.filter (fun r => r.synced == 0)

/-- The query `SELECT * FROM locations WHERE synced = 0 ORDER BY timestamp
ASC LIMIT 100` (App.js:358-360) — the spec calls this `listPending`. -/
def listPending (db : DBState) : List LocationRow :=
  (List.insertionSort tsLe (pendingRows db.locations)).take 100

/-- The statement `UPDATE locations SET synced = 1 WHERE id IN (...)`
(App.js:373-375, ids interpolated inline) — the spec calls this
`markSynced`. -/
def markSynced (locs : List LocationRow) (ids : List Nat) : List LocationRow :=
  locs.map (fun r => if r.id ∈ ids then { r with synced := 1 } else r)

/-- `locationIds.join(",")` (App.js:374,380): JavaScript `Array.join`. -/
def joinIds : List Nat → String
  | [] => ""
  | [i] => toString i
  | i :: rest => toString i ++ "," ++ joinIds rest

/-- Digit run to a natural number. -/
def digitsToNat (cs : List Char) : Nat :=
  cs.foldl (fun n c => n * 10 + (c.toNat - '0'.toNat)) 0

/-- SQLite numeric affinity applied to a TEXT value compared against an
INTEGER column: the text converts to an integer only when it is a
well-formed integer literal; otherwise it stays TEXT and is never equal
to any integer. -/
def numericAffinity (t : String) : Option Int :=
  match t.toList with
  | [] => none
  | '-' :: rest =>
    if rest ≠ [] ∧ rest.all Char.isDigit then some (-(digitsToNat rest : Int))
    else none
  | cs =>
    if cs.all Char.isDigit then some ((digitsToNat cs : Int)) else none

/-- Whether the INTEGER `record_id` equals the bound TEXT parameter under
SQLite comparison affinity rules. -/
def recordIdMatchesParam (recordId : Nat) (param : String) : Bool :=
  match numericAffinity param with
  | some k => (recordId : Int) == k
  | none => false

/-- `DELETE FROM sync_queue WHERE table_name = ? AND record_id IN (?)`
(App.js:378-381) with the second parameter bound to a single comma-joined
string — kept exactly as the source has it. -/
def deleteFromSyncQueue (db : DBState) (tbl : String) (param : String) : DBState :=
  { db with
    sync_queue := db.sync_queue.filter
      (fun e => !(e.table_name == tbl && recordIdMatchesParam e.record_id param)) }

/-- The body of `syncData` after the unsynced snapshot has been read and
found non-empty (App.js:368-384): the simulated remote send, the UPDATE,
the DELETE and the success log. -/
def syncBody (handleSet : Bool) (db : DBState) (snapshot : List LocationRow) :
    DBState :=
  let ids := snapshot.map (·.id)
  let db1 : DBState := { db with locations := markSynced db.locations ids }
  let db2 := deleteFromSyncQueue db1 "locations" (joinIds ids)
  logToDatabase handleSet db2
    ("Synced " ++ toString snapshot.length ++ " locations") "info"

/-- `syncData` (App.js:353-395), run to completion with no interleaving:
`if (!database || !isOnline) return;`, read the unsynced snapshot, and
either log "No data to sync" or run the sync body. -/
def syncData (s : AppState) : AppState :=
  if s.database && s.isOnline then
    if (listPending s.db).isEmpty then
      { s with db := logToDatabase s.database s.db "No data to sync" "info" }
    else
      { s with db := syncBody s.database s.db (listPending s.db) }
  else s

/-- The confirmed branch of `clearDatabase` (App.js:398-429): delete every
row of the three tables, then `logToDatabase("Database cleared")` (the
closure here has the non-null handle of the render in which the button
was pressed). -/
def clearDatabase (s : AppState) : AppState :=
  if s.database then
    let db1 : DBState := { s.db with locations := [], sync_queue := [], app_logs := [] }
    { s with db := logToDatabase s.database db1 "Database cleared" "info" }
  else s

/-- The row returned by the stats aggregate (App.js:118-124).  SQL
`COUNT(*)` is the length; `SUM(CASE ...)` is `NULL` (`none`) on an empty
table and the conditional count otherwise. -/
structure StatsRow where
  total : Nat
  synced : Option Nat
  pending : Option Nat
deriving Repr, DecidableEq

/-- `loadStats` / `getStats` core query (App.js:114-132). -/
def loadStats (db : DBState) : StatsRow :=
  { total := db.locations.length
    synced :=
      if db.locations.isEmpty then none
      else some ((db.locations.filter (fun r => r.synced == 1)).length)
    pending :=
      if db.locations.isEmpty then none
      else some ((db.locations.filter (fun r => r.synced == 0)).length) }

/-- The engine operations a caller can invoke once the app is running:
capture a fix (`saveLocation`), a manual/automatic sync trigger
(`syncData`), a stats refresh (read-only), the confirmed purge
(`clearDatabase`), and a connectivity transition (the NetInfo listener,
App.js:175-184, which sets `isOnline` and triggers `syncData` when the
transition is to online). -/
inductive EngineOp where
  | save (fix : Fix)
  | syncT
  | statsT
  | clearT
  | net (connected : Bool)
deriving Repr, DecidableEq

/-- Apply one engine operation. -/
def applyOp (s : AppState) : EngineOp → AppState
  | .save f => saveLocation s f
  | .syncT => syncData s
  | .statsT => s
  | .clearT => clearDatabase s
  | .net b =>
    if b then syncData { s with isOnline := b } else { s with isOnline := b }

/-- Apply a sequence of engine operations in order. -/
def applyOps (s : AppState) (ops : List EngineOp) : AppState :=
  ops.foldl applyOp s

/-- The state after startup: `initDatabase` has completed. -/
def initialReady : AppState := initDatabase initialAppState

/-- The phase an in-flight `syncData` invocation is in, relative to its
`await` suspension points: not yet started, suspended right after the
`getAllAsync` snapshot read (App.js:358) holding its local
`unsyncedLocations`, or finished. -/
inductive TaskPhase where
  | start
  | haveSnapshot (snapshot : List LocationRow)
  | done
deriving Repr, DecidableEq

/-- Shared state plus the phases of several concurrently triggered
`syncData` invocations, and a counter of how many of them reached the
simulated remote send (App.js:368-370). -/
structure ConcState where
  s : AppState
  tasks : List TaskPhase
  remoteCalls : Nat
deriving Repr, DecidableEq

/-- Run invocation `i` up to its next `await` suspension point.  Each
invocation executes exactly the statements of `syncData`: the guard and
snapshot read first, then (on resumption) either the "No data to sync"
log or the remote send, the UPDATE, the DELETE and the success log.
There is no `syncInFlight` flag anywhere in the source, so the guard
consults only `database` and `isOnline`. -/
def stepTask (c : ConcState) (i : Nat) : ConcState :=
  match c.tasks.get? i with
  | none => c
  | some .done => c
  | some .start =>
    if c.s.database && c.s.isOnline then
      { c with tasks := c.tasks.set i (.haveSnapshot (listPending c.s.db)) }
    else
      { c with tasks := c.tasks.set i .done }
  | some (.haveSnapshot snapshot) =>
    if snapshot.isEmpty then
      { c with
        s := { c.s with db := logToDatabase c.s.database c.s.db "No data to sync" "info" }
        tasks := c.tasks.set i .done }
    else
      { c with
        s := { c.s with db := syncBody c.s.database c.s.db snapshot }
        tasks := c.tasks.set i .done
        remoteCalls := c.remoteCalls + 1 }

/-- Run a schedule: a list of invocation indices, each entry meaning
"resume that invocation until its next suspension point". -/
def runSched (c : ConcState) (sched : List Nat) : ConcState :=
  sched.foldl stepTask c

/-- A state in which one sample is pending (with its outbox entry), the
database handle is set and the device is online. -/
def onePendingState : AppState :=
  ⟨true, true,
    ⟨[⟨1, 28, 77, none, none, none, none, 5, 0⟩],
      [⟨1, "locations", 1, "INSERT"⟩], [], 2, 2⟩⟩

/-- Two sync triggers fire together: both invocations start before either
finishes (trigger B passes the guard and reads its snapshot while trigger
A's sync is still in progress). -/
def twoTriggerStart : ConcState := ⟨onePendingState, [.start, .start], 0⟩

/-- The three fixes of the spec's scenario 7. -/
def fix1 : Fix := ⟨28.1, 77.2, none, none, none, none, 1⟩

def fix2 : Fix := ⟨28.2, 77.3, none, none, none, none, 2⟩

def fix3 : Fix := ⟨28.3, 77.4, none, none, none, none, 3⟩

/-- A fix with `latitude = 200` (spec scenario 8). -/
def fix200 : Fix := ⟨200, 77, none, none, none, none, 1⟩

/-- The store after inserting the three scenario fixes into a freshly
initialized engine. -/
def c2AfterInserts : AppState :=
  saveLocation (saveLocation (saveLocation initialReady fix1) fix2) fix3

/-- The store after one sync trigger on `c2AfterInserts`. -/
def c2AfterSync : AppState := syncData c2AfterInserts

/-- The ids of the rows whose `synced` flag is set. -/
def syncedIds (l : List LocationRow) : List Nat :=
  (l.filter (fun r => r.synced == 1)).map (·.id)

/-- A state holding one already-synced sample. -/
def oneSyncedState : AppState :=
  ⟨true, true, ⟨[⟨1, 28, 77, none, none, none, none, 5, 1⟩], [], [], 2, 1⟩⟩

/-- How many `sync_queue` rows reference location id `i` (with the
`table_name = "locations"` condition of the source's DELETE). -/
def countRef (q : List SyncQueueRow) (i : Nat) : Nat :=
  (q.filter (fun e => e.table_name == "locations" && e.record_id == i)).length

/-- Whether outbox entry `e` references a sample that is currently
pending. -/
def refsPending (l : List LocationRow) (e : SyncQueueRow) : Bool :=
  l.any (fun r => r.synced == 0 && e.record_id == r.id)

/-- Number of pending samples. -/
def pendingCount (db : DBState) : Nat := (pendingRows db.locations).length

/-- Number of live outbox entries referencing a pending sample. -/
def refPendingCount (db : DBState) : Nat :=
  (db.sync_queue.filter (refsPending db.locations)).length

/-- The inductive invariant of the durable store: location ids are
distinct and below the AUTOINCREMENT counter, every outbox entry targets
the `locations` table with a record id below the counter, and every
pending sample is referenced by exactly one outbox entry. -/
structure DBInv (db : DBState) : Prop where
  ids_lt : ∀ r ∈ db.locations, r.id < db.nextLocId
  ids_nodup : (db.locations.map (·.id)).Nodup
  q_tbl : ∀ e ∈ db.sync_queue, e.table_name = "locations"
  q_lt : ∀ e ∈ db.sync_queue, e.record_id < db.nextLocId
  pending_one : ∀ r ∈ db.locations, r.synced = 0 → countRef db.sync_queue r.id = 1

/-! ### Projection lemmas for the state-transforming operations -/

@[simp]
theorem logToDatabase_locations (h : Bool) (db : DBState) (m l : String) :
    (logToDatabase h db m l).locations = db.locations := by
  unfold logToDatabase; split <;> rfl

@[simp]
theorem logToDatabase_sync_queue (h : Bool) (db : DBState) (m l : String) :
    (logToDatabase h db m l).sync_queue = db.sync_queue := by
  unfold logToDatabase; split <;> rfl

@[simp]
theorem logToDatabase_nextLocId (h : Bool) (db : DBState) (m l : String) :
    (logToDatabase h db m l).nextLocId = db.nextLocId := by
  unfold logToDatabase; split <;> rfl

@[simp]
theorem logToDatabase_nextQueueId (h : Bool) (db : DBState) (m l : String) :
    (logToDatabase h db m l).nextQueueId = db.nextQueueId := by
  unfold logToDatabase; split <;> rfl

@[simp]
theorem syncBody_locations (h : Bool) (db : DBState) (snap : List LocationRow) :
    (syncBody h db snap).locations = markSynced db.locations (snap.map (·.id)) := by
  simp [syncBody, deleteFromSyncQueue]

@[simp]
theorem syncBody_sync_queue (h : Bool) (db : DBState) (snap : List LocationRow) :
    (syncBody h db snap).sync_queue =
      db.sync_queue.filter
        (fun e => !(e.table_name == "locations" &&
          recordIdMatchesParam e.record_id (joinIds (snap.map (·.id))))) := by
  simp [syncBody, deleteFromSyncQueue]

@[simp]
theorem syncBody_nextLocId (h : Bool) (db : DBState) (snap : List LocationRow) :
    (syncBody h db snap).nextLocId = db.nextLocId := by
  simp [syncBody, deleteFromSyncQueue]

@[simp]
theorem syncBody_nextQueueId (h : Bool) (db : DBState) (snap : List LocationRow) :
    (syncBody h db snap).nextQueueId = db.nextQueueId := by
  simp [syncBody, deleteFromSyncQueue]

/-- The row-updating function of `markSynced`. -/
theorem markSynced_cons (r : LocationRow) (t : List LocationRow) (ids : List Nat) :
    markSynced (r :: t) ids =
      (if r.id ∈ ids then { r with synced := 1 } else r) :: markSynced t ids := rfl

@[simp]
theorem markSynced_nil (ids : List Nat) : markSynced [] ids = [] := rfl

/-- `markSynced` only touches the `synced` field, so ids are unchanged. -/
theorem markSynced_map_id (l : List LocationRow) (ids : List Nat) :
    (markSynced l ids).map (·.id) = l.map (·.id) := by
  induction l with
  | nil => rfl
  | cons r t ih =>
    rw [markSynced_cons]
    by_cases h : r.id ∈ ids <;> simp [h, ih]

/-- Marking depends only on membership in the id list. -/
theorem markSynced_congr (l : List LocationRow) {A B : List Nat}
    (h : ∀ x, x ∈ A ↔ x ∈ B) : markSynced l A = markSynced l B := by
  unfold markSynced
  refine List.map_congr_left fun r _ => ?_
  by_cases hA : r.id ∈ A
  · rw [if_pos hA, if_pos ((h r.id).mp hA)]
  · rw [if_neg hA, if_neg (fun hB => hA ((h r.id).mpr hB))]

/-- Marking with `A` and then `B` is marking with `A ++ B`. -/
theorem markSynced_markSynced (l : List LocationRow) (A B : List Nat) :
    markSynced (markSynced l A) B = markSynced l (A ++ B) := by
  induction l with
  | nil => rfl
  | cons r t ih =>
    rw [markSynced_cons, markSynced_cons, markSynced_cons, ih]
    by_cases hA : r.id ∈ A <;> by_cases hB : r.id ∈ B <;>
      simp [hA, hB, List.mem_append]

/-- Re-marking rows that are already synced changes nothing. -/
theorem markSynced_id_of_synced (l : List LocationRow) (A : List Nat)
    (h : ∀ r ∈ l, r.id ∈ A → r.synced = 1) : markSynced l A = l := by
  induction l with
  | nil => rfl
  | cons r t ih =>
    rw [markSynced_cons, ih fun x hx => h x (List.mem_cons_of_mem _ hx)]
    by_cases hA : r.id ∈ A
    · have hs : r.synced = 1 := h r (List.mem_cons_self _ _) hA
      cases r
      simp_all
    · rw [if_neg hA]

/-- C7: `markSynced` is idempotent and never errors (it is a total
function on the store): marking with `A` and then with an overlapping set
`B` equals a single marking with the union `A ++ B`; marking twice with
the same set equals marking once; and re-marking ids that are already
synced is a no-op. -/
theorem c7_markSynced_idempotent (l : List LocationRow) (A B : List Nat) :
    markSynced (markSynced l A) B = markSynced l (A ++ B) ∧
    markSynced (markSynced l A) A = markSynced l A ∧
    ((∀ r ∈ l, r.id ∈ A → r.synced = 1) → markSynced l A = l) := by
  refine ⟨markSynced_markSynced l A B, ?_, markSynced_id_of_synced l A⟩
  rw [markSynced_markSynced]
  exact markSynced_congr l fun x => by simp [List.mem_append]

theorem c7_markSynced_idempotent_witness :
    (∀ r ∈ markSynced onePendingState.db.locations [1], r.id ∈ [1] → r.synced = 1) ∧
    markSynced (markSynced onePendingState.db.locations [1]) [1] =
      markSynced onePendingState.db.locations [1] :=
  ⟨by decide,
   (c7_markSynced_idempotent (markSynced onePendingState.db.locations [1]) [1] [1]).2.2
     (by decide)⟩

/-- C1: the claim requires that firing sync triggers while one sync is in
progress yields exactly one executed sync body / remote call.  The source
has no `syncInFlight` guard at all, so with one pending sample and two
triggers interleaved as "A reads its snapshot, B reads its snapshot, A
finishes, B finishes" both invocations reach the simulated remote send:
the model counts 2 remote calls, not 1. -/
theorem c1_two_triggers_two_remote_calls :
    (runSched twoTriggerStart [0, 1, 0, 1]).remoteCalls = 2 := by decide

/-- C2: inserting the three scenario samples gives stats
`{total:3, synced:0, pending:3}`, and one sync trigger gives
`{total:3, synced:3, pending:0}` — but the Outbox is NOT empty: the
`DELETE ... record_id IN (?)` binds the single string "1,2,3", which
matches no INTEGER `record_id`, so all 3 `sync_queue` rows survive,
contradicting the claim's "Outbox contains no entries". -/
theorem c2_scenario_outbox_not_empty :
    loadStats c2AfterInserts.db = ⟨3, some 0, some 3⟩ ∧
    loadStats c2AfterSync.db = ⟨3, some 3, some 0⟩ ∧
    c2AfterSync.db.sync_queue.length = 3 := by decide

/-- C4 counterexample: the claim says a fix with `latitude = 200` is
rejected with `ValidationError` and the store is unchanged.  The source
performs no validation: the insert succeeds, stats `total` becomes 1 and
an Outbox entry is created. -/
theorem c4_counterexample_lat200_inserted :
    (loadStats (saveLocation initialReady fix200).db).total = 1 ∧
    (saveLocation initialReady fix200).db.sync_queue.length = 1 := by decide

/-- C4 (amended): `saveLocation` performs no coordinate validation at
all — for every state with the handle set and every fix, including one
with `latitude = 200`, it appends exactly one `locations` row (with
`synced = 0`) and one `sync_queue` row; no `ValidationError` exists in
the code. -/
theorem c4_no_validation (s : AppState) (f : Fix) (h : s.database = true) :
    (saveLocation s f).db.locations =
      s.db.locations ++
        [⟨s.db.nextLocId, f.latitude, f.longitude, f.accuracy, f.altitude,
          f.speed, f.heading, f.timestamp, 0⟩] ∧
    (saveLocation s f).db.sync_queue =
      s.db.sync_queue ++ [⟨s.db.nextQueueId, "locations", s.db.nextLocId, "INSERT"⟩] := by
  simp [saveLocation, logToDatabase, h]

theorem c4_no_validation_witness :
    initialReady.database = true ∧
    ((saveLocation initialReady fix200).db.locations =
      initialReady.db.locations ++
        [⟨initialReady.db.nextLocId, fix200.latitude, fix200.longitude,
          fix200.accuracy, fix200.altitude, fix200.speed, fix200.heading,
          fix200.timestamp, 0⟩] ∧
     (saveLocation initialReady fix200).db.sync_queue =
      initialReady.db.sync_queue ++
        [⟨initialReady.db.nextQueueId, "locations", initialReady.db.nextLocId,
          "INSERT"⟩]) :=
  ⟨rfl, c4_no_validation initialReady fix200 rfl⟩

/-- C5 counterexample: the claim says a fix delivered before the store
handle is initialized surfaces an `EngineNotReady` condition and is never
silently dropped.  In the source, `saveLocation` begins with
`if (!database) return;`: on the pre-initialization state the call is a
complete no-op — the state (including the audit log, where an error
would be recorded) is bit-for-bit unchanged, and the function has no
error result at all. -/
theorem c5_counterexample_silent_drop :
    saveLocation initialAppState fix1 = initialAppState := by rfl

/-- C5 (amended): a fix delivered while the store handle is unset is
silently dropped — `saveLocation` returns the state unchanged, persists
nothing and surfaces no error. -/
theorem c5_silent_drop (s : AppState) (f : Fix) (h : s.database = false) :
    saveLocation s f = s := by
  simp [saveLocation, h]

theorem c5_silent_drop_witness :
    initialAppState.database = false ∧
    saveLocation initialAppState fix2 = initialAppState :=
  ⟨rfl, c5_silent_drop initialAppState fix2 rfl⟩

/-- C9 counterexample: the claim says that after the purge completes the
Audit Log is empty.  The source's confirmed clear handler deletes the
three tables and then immediately calls
`logToDatabase("Database cleared")`, so the audit log holds one entry
when the operation completes. -/
theorem c9_counterexample_audit_log_not_empty :
    ((clearDatabase onePendingState).db.app_logs).length = 1 := by decide

/-- C9 (amended): after the confirmed purge the sample store and the
Outbox are empty, and the Audit Log contains exactly the single
"Database cleared" entry appended right after the three DELETEs. -/
theorem c9_purge (s : AppState) (h : s.database = true) :
    (clearDatabase s).db.locations = [] ∧
    (clearDatabase s).db.sync_queue = [] ∧
    (clearDatabase s).db.app_logs = [⟨"Database cleared", "info"⟩] := by
  simp [clearDatabase, logToDatabase, h]

theorem c9_purge_witness :
    onePendingState.database = true ∧
    ((clearDatabase onePendingState).db.locations = [] ∧
     (clearDatabase onePendingState).db.sync_queue = [] ∧
     (clearDatabase onePendingState).db.app_logs = [⟨"Database cleared", "info"⟩]) :=
  ⟨rfl, c9_purge onePendingState rfl⟩

/-! ### C6: monotonic sync -/

theorem mem_syncedIds {l : List LocationRow} {i : Nat} :
    i ∈ syncedIds l ↔ ∃ r, r ∈ l ∧ r.synced = 1 ∧ r.id = i := by
  simp [syncedIds, List.mem_map, List.mem_filter, and_assoc]

theorem applyOps_nil (s : AppState) : applyOps s [] = s := rfl

theorem applyOps_cons (s : AppState) (op : EngineOp) (t : List EngineOp) :
    applyOps s (op :: t) = applyOps (applyOp s op) t := rfl

/-- `markSynced` never clears a set flag. -/
theorem mem_syncedIds_markSynced (l : List LocationRow) (ids : List Nat) (i : Nat)
    (hi : i ∈ syncedIds l) : i ∈ syncedIds (markSynced l ids) := by
  rw [mem_syncedIds] at hi ⊢
  obtain ⟨r, hr, hs, hid⟩ := hi
  subst hid
  refine ⟨_, List.mem_map_of_mem _ hr, ?_, ?_⟩
  · by_cases h : r.id ∈ ids <;> simp [h, hs]
  · by_cases h : r.id ∈ ids <;> simp [h]

theorem syncedIds_saveLocation (s : AppState) (f : Fix) (i : Nat)
    (hi : i ∈ syncedIds s.db.locations) :
    i ∈ syncedIds (saveLocation s f).db.locations := by
  unfold saveLocation
  split
  · rw [mem_syncedIds] at hi ⊢
    obtain ⟨r, hr, hs, hid⟩ := hi
    exact ⟨r, by simp [List.mem_append, hr], hs, hid⟩
  · exact hi

theorem syncedIds_syncData (s : AppState) (i : Nat)
    (hi : i ∈ syncedIds s.db.locations) :
    i ∈ syncedIds (syncData s).db.locations := by
  unfold syncData
  split
  · split
    · simpa using hi
    · simpa using mem_syncedIds_markSynced s.db.locations _ i hi
  · exact hi

theorem syncedIds_applyOp (s : AppState) (op : EngineOp) (i : Nat)
    (hop : op ≠ EngineOp.clearT) (hi : i ∈ syncedIds s.db.locations) :
    i ∈ syncedIds (applyOp s op).db.locations := by
  cases op with
  | save f => exact syncedIds_saveLocation s f i hi
  | syncT => exact syncedIds_syncData s i hi
  | statsT => exact hi
  | clearT => exact absurd rfl hop
  | net b =>
    cases b with
    | true => exact syncedIds_syncData { s with isOnline := true } i hi
    | false => exact hi

/-- C6: monotonic sync — once a sample's id is among the synced ids, it
stays there under every sequence of engine operations that does not
contain the purge: `saveLocation`, `syncData`, stats reads and
connectivity transitions never reset a `synced` flag. -/
theorem c6_monotonic_sync (ops : List EngineOp) (s : AppState) (i : Nat)
    (hops : ∀ op ∈ ops, op ≠ EngineOp.clearT)
    (hi : i ∈ syncedIds s.db.locations) :
    i ∈ syncedIds (applyOps s ops).db.locations := by
  induction ops generalizing s with
  | nil => exact hi
  | cons op t ih =>
    rw [applyOps_cons]
    exact ih (applyOp s op)
      (fun o ho => hops o (List.mem_cons_of_mem _ ho))
      (syncedIds_applyOp s op i (hops op (List.mem_cons_self _ _)) hi)

theorem c6_monotonic_sync_witness :
    (∀ op ∈ [EngineOp.save fix1, EngineOp.syncT], op ≠ EngineOp.clearT) ∧
    1 ∈ syncedIds oneSyncedState.db.locations ∧
    1 ∈ syncedIds
        (applyOps oneSyncedState [EngineOp.save fix1, EngineOp.syncT]).db.locations :=
  ⟨by decide, by decide,
   c6_monotonic_sync [EngineOp.save fix1, EngineOp.syncT] oneSyncedState 1
     (by decide) (by decide)⟩

/-! ### C8: listPending -/

/-- C8: `listPending` returns only samples with `synced = 0`, drawn from
the store; the result is ordered by `timestamp` (`capturedAt`) ascending;
its length is bounded by the batch limit 100; and whenever there are at
most 100 pending samples it contains every pending sample. -/
theorem c8_listPending (db : DBState) :
    (∀ r ∈ listPending db, r.synced = 0 ∧ r ∈ db.locations) ∧
    (listPending db).Sorted tsLe ∧
    (listPending db).length ≤ 100 ∧
    ((db.locations.filter (fun r => r.synced == 0)).length ≤ 100 →
      ∀ r ∈ db.locations, r.synced = 0 → r ∈ listPending db) := by
  refine ⟨?_, ?_, ?_, ?_⟩
  · intro r hr
    have h1 : r ∈ List.insertionSort tsLe
        (db.locations.filter (fun r => r.synced == 0)) :=
      List.mem_of_mem_take hr
    have h2 : r ∈ db.locations.filter (fun r => r.synced == 0) :=
      (List.perm_insertionSort tsLe _).mem_iff.mp h1
    have h3 := List.mem_filter.mp h2
    exact ⟨by simpa using h3.2, h3.1⟩
  · exact List.Pairwise.sublist (List.take_sublist _ _)
      (List.sorted_insertionSort tsLe _)
  · simp [listPending, List.length_take]
  · intro hlen r hr hs
    have hmem : r ∈ db.locations.filter (fun r => r.synced == 0) :=
      List.mem_filter.mpr ⟨hr, by simpa using hs⟩
    have hsort : r ∈ List.insertionSort tsLe
        (db.locations.filter (fun r => r.synced == 0)) :=
      (List.perm_insertionSort tsLe _).mem_iff.mpr hmem
    have hl : (List.insertionSort tsLe
        (db.locations.filter (fun r => r.synced == 0))).length ≤ 100 := by
      rw [(List.perm_insertionSort tsLe _).length_eq]; exact hlen
    unfold listPending pendingRows
    rw [List.take_of_length_le hl]
    exact hsort

theorem c8_listPending_witness :
    (⟨1, 28, 77, none, none, none, none, 5, 0⟩ : LocationRow) ∈
        listPending onePendingState.db ∧
    ((⟨1, 28, 77, none, none, none, none, 5, 0⟩ : LocationRow).synced = 0 ∧
     (⟨1, 28, 77, none, none, none, none, 5, 0⟩ : LocationRow) ∈
        onePendingState.db.locations) :=
  ⟨by decide, (c8_listPending onePendingState.db).1 _ (by decide)⟩

/-- C10: appending an audit entry while the handle is unset is a silent
no-op (state unchanged, no error), and the "Database initialized
successfully" message logged during `initDatabase` is never persisted,
because the `logToDatabase` closure still captures the null handle of the
render in which initialization started: after `initDatabase` the audit
log is empty. -/
theorem c10_init_log_silently_dropped :
    (∀ (db : DBState) (message level : String),
        logToDatabase false db message level = db) ∧
    (initDatabase initialAppState).db.app_logs = [] :=
  ⟨fun _ _ _ => rfl, rfl⟩

/-! ### C3: the pairing invariant -/

theorem all_isDigit_false_of_comma {cs : List Char} (h : ',' ∈ cs) :
    cs.all Char.isDigit = false := by
  by_contra hac
  have hall := List.all_eq_true.mp (Bool.of_not_eq_false hac)
  exact absurd (hall ',' h) (by decide)

/-- A string containing a comma is not a well-formed integer literal, so
numeric affinity leaves it TEXT. -/
theorem numericAffinity_none_of_comma (t : String) (hc : ',' ∈ t.toList) :
    numericAffinity t = none := by
  unfold numericAffinity
  split
  · rfl
  · rename_i rest heq
    rw [heq] at hc
    have hmem : ',' ∈ rest := by
      rcases List.mem_cons.mp hc with h | h
      · exact absurd h (by decide)
      · exact h
    rw [if_neg]
    intro ⟨_, hall⟩
    rw [all_isDigit_false_of_comma hmem] at hall
    exact Bool.false_ne_true hall
  · rw [if_neg]
    intro hall
    rw [all_isDigit_false_of_comma hc] at hall
    exact Bool.false_ne_true hall

theorem mem_comma_append (x y : String) : ',' ∈ (x ++ "," ++ y).toList := by
  simp [String.toList, String.data_append]

/-- A TEXT parameter that fails integer conversion matches no record id. -/
theorem recordIdMatchesParam_of_none {param : String} (i : Nat)
    (h : numericAffinity param = none) : recordIdMatchesParam i param = false := by
  unfold recordIdMatchesParam
  rw [h]

/-- With a batch of two or more ids, the comma-joined parameter contains a
comma, numeric affinity fails, and the DELETE removes nothing. -/
theorem delete_noop_of_two (q : List SyncQueueRow) (snap : List LocationRow)
    (h2 : 2 ≤ snap.length) :
    q.filter (fun e => !(e.table_name == "locations" &&
        recordIdMatchesParam e.record_id (joinIds (snap.map (·.id))))) = q := by
  apply List.filter_eq_self.mpr
  intro e _
  have hcm : ',' ∈ (joinIds (snap.map (·.id))).toList := by
    rcases snap with _ | ⟨a, rest⟩
    · simp at h2
    rcases rest with _ | ⟨b, t⟩
    · simp at h2
    exact mem_comma_append (toString a.id) (joinIds (b.id :: t.map (·.id)))
  rw [recordIdMatchesParam_of_none e.record_id (numericAffinity_none_of_comma _ hcm)]
  simp

/-- A row that is still pending after `markSynced` was pending before and
its id was not in the marked set. -/
theorem pending_in_markSynced {l : List LocationRow} {ids : List Nat}
    {r' : LocationRow} (h : r' ∈ markSynced l ids) (hp : r'.synced = 0) :
    r' ∈ l ∧ r'.id ∉ ids := by
  obtain ⟨r, hr, hf⟩ := List.mem_map.mp h
  by_cases hm : r.id ∈ ids
  · rw [if_pos hm] at hf
    rw [← hf] at hp
    simp at hp
  · rw [if_neg hm] at hf
    exact hf ▸ ⟨hr, hm⟩

/-- Every row of `markSynced l ids` carries the id of a row of `l`. -/
theorem markSynced_mem_imp {l : List LocationRow} {ids : List Nat}
    {r' : LocationRow} (h : r' ∈ markSynced l ids) : ∃ r ∈ l, r'.id = r.id := by
  obtain ⟨r, hr, hf⟩ := List.mem_map.mp h
  refine ⟨r, hr, ?_⟩
  rw [← hf]
  split <;> rfl

theorem length_listPending (db : DBState) :
    (listPending db).length = min 100 (pendingRows db.locations).length := by
  unfold listPending
  rw [List.length_take, (List.perm_insertionSort tsLe _).length_eq]

/-- A non-empty sync batch either is the unique pending sample, or it has
at least two elements. -/
theorem snapshot_cases (db : DBState) (hne : (listPending db).isEmpty = false) :
    (∃ r0, pendingRows db.locations = [r0] ∧ listPending db = [r0]) ∨
    2 ≤ (listPending db).length := by
  have hlen := length_listPending db
  have hpos : 0 < (listPending db).length :=
    List.length_pos.mpr (List.isEmpty_eq_false.mp hne)
  rcases Nat.lt_or_ge (pendingRows db.locations).length 2 with hlt | hge
  · have hp1 : 0 < (pendingRows db.locations).length := by
      rw [hlen] at hpos
      exact (Nat.lt_min.mp hpos).2
    have h1 : (pendingRows db.locations).length = 1 := by omega
    obtain ⟨r0, hr0⟩ := List.length_eq_one.mp h1
    left
    refine ⟨r0, hr0, ?_⟩
    unfold listPending
    rw [hr0]
    rfl
  · right
    rw [hlen]
    exact le_min (by norm_num) hge

theorem countRef_append_single (q : List SyncQueueRow) (e : SyncQueueRow) (i : Nat) :
    countRef (q ++ [e]) i =
      countRef q i +
        (if (e.table_name == "locations" && e.record_id == i) = true then 1 else 0) := by
  unfold countRef
  rw [List.filter_append, List.length_append]
  by_cases hp : (e.table_name == "locations" && e.record_id == i) = true
  · simp [List.filter_cons, hp]
  · simp [List.filter_cons, hp]

theorem countRef_eq_zero_of_lt {q : List SyncQueueRow} {n : Nat}
    (h : ∀ e ∈ q, e.record_id < n) : countRef q n = 0 := by
  unfold countRef
  rw [List.length_eq_zero, List.filter_eq_nil_iff]
  intro e he
  simp only [Bool.and_eq_true, beq_iff_eq, not_and]
  intro _ hrec
  exact absurd hrec (Nat.ne_of_lt (h e he))

/-- Logging touches only `app_logs`, so the invariant passes through. -/
theorem DBInv_log (hb : Bool) (db : DBState) (m l : String) (h : DBInv db) :
    DBInv (logToDatabase hb db m l) :=
  ⟨by simpa using h.ids_lt, by simpa using h.ids_nodup,
   by simpa using h.q_tbl, by simpa using h.q_lt,
   by simpa using h.pending_one⟩

theorem inv_saveLocation (s : AppState) (f : Fix) (h : DBInv s.db) :
    DBInv (saveLocation s f).db := by
  unfold saveLocation
  split
  · refine ⟨?_, ?_, ?_, ?_, ?_⟩
    · intro r hr
      simp only [logToDatabase_locations, logToDatabase_nextLocId] at *
      rcases List.mem_append.mp hr with h1 | h1
      · exact Nat.lt_succ_of_lt (h.ids_lt r h1)
      · rw [List.mem_singleton.mp h1]
        exact Nat.lt_succ_self _
    · simp only [logToDatabase_locations, List.map_append]
      rw [List.nodup_append]
      refine ⟨h.ids_nodup, by simp, ?_⟩
      intro a ha hb
      obtain ⟨r, hr, hid⟩ := List.mem_map.mp ha
      have : a = s.db.nextLocId := by simpa using hb
      rw [this] at hid
      exact absurd (hid ▸ h.ids_lt r hr) (lt_irrefl _)
    · intro e he
      simp only [logToDatabase_sync_queue] at he
      rcases List.mem_append.mp he with h1 | h1
      · exact h.q_tbl e h1
      · rw [List.mem_singleton.mp h1]
    · intro e he
      simp only [logToDatabase_sync_queue, logToDatabase_nextLocId] at *
      rcases List.mem_append.mp he with h1 | h1
      · exact Nat.lt_succ_of_lt (h.q_lt e h1)
      · rw [List.mem_singleton.mp h1]
        exact Nat.lt_succ_self _
    · intro r hr hp
      simp only [logToDatabase_locations, logToDatabase_sync_queue] at *
      rcases List.mem_append.mp hr with h1 | h1
      · rw [countRef_append_single]
        have hne : (s.db.nextLocId == r.id) = false :=
          beq_eq_false_iff_ne.mpr (Nat.ne_of_gt (h.ids_lt r h1))
        simp only [hne, Bool.and_false, if_false]
        exact h.pending_one r h1 hp
      · rw [List.mem_singleton.mp h1, countRef_append_single,
          countRef_eq_zero_of_lt h.q_lt]
        simp
  · exact h

theorem inv_syncBody (hb : Bool) (db : DBState)
    (hne : (listPending db).isEmpty = false) (h : DBInv db) :
    DBInv (syncBody hb db (listPending db)) := by
  refine ⟨?_, ?_, ?_, ?_, ?_⟩
  · intro r' hr'
    simp only [syncBody_locations, syncBody_nextLocId] at *
    obtain ⟨r, hr, hid⟩ := markSynced_mem_imp hr'
    exact hid ▸ h.ids_lt r hr
  · simp only [syncBody_locations]
    rw [markSynced_map_id]
    exact h.ids_nodup
  · intro e he
    simp only [syncBody_sync_queue] at he
    exact h.q_tbl e (List.mem_of_mem_filter he)
  · intro e he
    simp only [syncBody_sync_queue, syncBody_nextLocId] at *
    exact h.q_lt e (List.mem_of_mem_filter he)
  · intro r' hr' hp'
    simp only [syncBody_locations, syncBody_sync_queue] at *
    obtain ⟨hrl, hnotin⟩ := pending_in_markSynced hr' hp'
    rcases snapshot_cases db hne with ⟨r0, hpend, hsnap⟩ | h2
    · exfalso
      have hmem : r' ∈ pendingRows db.locations :=
        List.mem_filter.mpr ⟨hrl, by simp [hp']⟩
      rw [hpend, List.mem_singleton] at hmem
      apply hnotin
      rw [hsnap, hmem]
      simp
    · rw [delete_noop_of_two _ _ h2]
      exact h.pending_one r' hrl hp'

theorem inv_syncData (s : AppState) (h : DBInv s.db) : DBInv (syncData s).db := by
  unfold syncData
  split
  · split
    · exact DBInv_log _ _ _ _ h
    · rename_i hie
      exact inv_syncBody s.database s.db (Bool.not_eq_true _ ▸ hie) h
  · exact h

theorem inv_clearDatabase (s : AppState) (h : DBInv s.db) :
    DBInv (clearDatabase s).db := by
  unfold clearDatabase
  split
  · exact ⟨by simp, by simp, by simp, by simp, by simp⟩
  · exact h

theorem inv_applyOp (s : AppState) (op : EngineOp) (h : DBInv s.db) :
    DBInv (applyOp s op).db := by
  cases op with
  | save f => exact inv_saveLocation s f h
  | syncT => exact inv_syncData s h
  | statsT => exact h
  | clearT => exact inv_clearDatabase s h
  | net b =>
    cases b with
    | true => exact inv_syncData { s with isOnline := true } h
    | false => exact h

theorem inv_applyOps (s : AppState) (ops : List EngineOp) (h : DBInv s.db) :
    DBInv (applyOps s ops).db := by
  induction ops generalizing s with
  | nil => exact h
  | cons op t ih =>
    rw [applyOps_cons]
    exact ih (applyOp s op) (inv_applyOp s op h)

theorem inv_initialReady : DBInv initialReady.db :=
  ⟨by simp [initialReady, initDatabase, initialAppState, logToDatabase, emptyDB],
   by simp [initialReady, initDatabase, initialAppState, logToDatabase, emptyDB],
   by simp [initialReady, initDatabase, initialAppState, logToDatabase, emptyDB],
   by simp [initialReady, initDatabase, initialAppState, logToDatabase, emptyDB],
   by simp [initialReady, initDatabase, initialAppState, logToDatabase, emptyDB]⟩

theorem length_filter_or {α : Type} (l : List α) (p q : α → Bool)
    (hd : ∀ a ∈ l, ¬(p a = true ∧ q a = true)) :
    (l.filter (fun a => p a || q a)).length =
      (l.filter p).length + (l.filter q).length := by
  induction l with
  | nil => rfl
  | cons a t ih =>
    have hd' := fun x hx => hd x (List.mem_cons_of_mem _ hx)
    have hda := hd a (List.mem_cons_self _ _)
    cases hp : p a <;> cases hq : q a
    · simp [List.filter_cons, hp, hq, ih hd']
    · simp [List.filter_cons, hp, hq, ih hd']
      omega
    · simp [List.filter_cons, hp, hq, ih hd']
      omega
    · exact absurd ⟨hp, hq⟩ hda

theorem sum_map_ones {α : Type} (L : List α) (f : α → Nat)
    (h : ∀ x ∈ L, f x = 1) : (L.map f).sum = L.length := by
  induction L with
  | nil => rfl
  | cons a t ih =>
    simp only [List.map_cons, List.sum_cons, List.length_cons,
      h a (List.mem_cons_self _ _), ih fun x hx => h x (List.mem_cons_of_mem _ hx)]
    omega

/-- Counting entries that reference any of a duplicate-free row list
splits into a sum of per-row counts. -/
theorem length_filter_any (q : List SyncQueueRow) (P : List LocationRow)
    (hnd : (P.map (·.id)).Nodup) :
    (q.filter (fun e => P.any (fun r => e.record_id == r.id))).length
      = (P.map (fun r => (q.filter (fun e => e.record_id == r.id)).length)).sum := by
  induction P with
  | nil => simp
  | cons r P ih =>
    have hnd' : (P.map (·.id)).Nodup := (List.nodup_cons.mp hnd).2
    have hnotin : r.id ∉ P.map (·.id) := (List.nodup_cons.mp hnd).1
    have hdisj : ∀ e ∈ q,
        ¬((e.record_id == r.id) = true ∧
          (P.any (fun r' => e.record_id == r'.id)) = true) := by
      rintro e _ ⟨h1, h2⟩
      obtain ⟨r', hr', hr'id⟩ := List.any_eq_true.mp h2
      apply hnotin
      rw [List.mem_map]
      exact ⟨r', hr', by rw [← eq_of_beq hr'id, eq_of_beq h1]⟩
    have hfun : (fun (e : SyncQueueRow) => (r :: P).any fun r' => e.record_id == r'.id)
        = fun e => (e.record_id == r.id) || (P.any fun r' => e.record_id == r'.id) :=
      funext fun e => List.any_cons
    rw [hfun, length_filter_or q _ _ hdisj, List.map_cons, List.sum_cons, ih hnd']

/-- When every entry targets the `locations` table, the table-name
conjunct of `countRef` is redundant. -/
theorem countRef_eq_filter_record (q : List SyncQueueRow) (i : Nat)
    (htbl : ∀ e ∈ q, e.table_name = "locations") :
    countRef q i = (q.filter (fun e => e.record_id == i)).length := by
  unfold countRef
  congr 1
  apply List.filter_congr
  intro e he
  rw [htbl e he]
  simp

theorem refsPending_eq_any_pending (l : List LocationRow) (e : SyncQueueRow) :
    refsPending l e = (pendingRows l).any (fun r => e.record_id == r.id) := by
  unfold refsPending pendingRows
  rw [List.any_filter]

/-- Under the invariant, the number of pending samples equals the number
of outbox entries referencing a pending sample. -/
theorem pending_eq_refPending (db : DBState) (h : DBInv db) :
    pendingCount db = refPendingCount db := by
  have hnd : ((pendingRows db.locations).map (·.id)).Nodup :=
    List.Nodup.sublist (List.Sublist.map _ (List.filter_sublist _)) h.ids_nodup
  have h1 : db.sync_queue.filter (refsPending db.locations)
      = db.sync_queue.filter
          (fun e => (pendingRows db.locations).any (fun r => e.record_id == r.id)) :=
    List.filter_congr fun e _ => refsPending_eq_any_pending db.locations e
  have hones : ∀ r ∈ pendingRows db.locations,
      (db.sync_queue.filter (fun e => e.record_id == r.id)).length = 1 := by
    intro r hr
    have hrl := List.mem_filter.mp hr
    rw [← countRef_eq_filter_record _ _ h.q_tbl]
    exact h.pending_one r hrl.1 (by simpa using hrl.2)
  unfold refPendingCount pendingCount
  rw [h1, length_filter_any _ _ hnd, sum_map_ones _ _ hones]

/-- An outbox entry whose referenced sample is still pending after the
operation is never removed by that operation (for `syncData`, covering
both the sync trigger and the online-transition trigger). -/
theorem no_pending_removal_sync (s : AppState) (e : SyncQueueRow)
    (he : e ∈ s.db.sync_queue)
    (hp : ∃ r, r ∈ (syncData s).db.locations ∧ r.id = e.record_id ∧ r.synced = 0) :
    e ∈ (syncData s).db.sync_queue := by
  unfold syncData at hp ⊢
  by_cases hg : (s.database && s.isOnline) = true
  · rw [if_pos hg] at hp ⊢
    by_cases hie : (listPending s.db).isEmpty = true
    · rw [if_pos hie] at hp ⊢
      simpa using he
    · rw [if_neg hie] at hp ⊢
      simp only [syncBody_locations] at hp
      simp only [syncBody_sync_queue]
      rcases snapshot_cases s.db (Bool.not_eq_true _ ▸ hie) with
        ⟨r0, hpend, hsnap⟩ | h2
      · exfalso
        obtain ⟨r, hr, _, hsync⟩ := hp
        obtain ⟨hrl, hnotin⟩ := pending_in_markSynced hr hsync
        have hmem : r ∈ pendingRows s.db.locations :=
          List.mem_filter.mpr ⟨hrl, by simp [hsync]⟩
        rw [hpend, List.mem_singleton] at hmem
        apply hnotin
        rw [hsnap, hmem]
        simp
      · rw [delete_noop_of_two _ _ h2]
        exact he
  · rw [if_neg hg] at hp ⊢
    exact he

/-- `no_pending_removal_sync`, extended to every engine operation:
`saveLocation` removes nothing, the purge removes every sample (so no
sample is pending afterwards), and stats reads change nothing. -/
theorem no_pending_removal (s : AppState) (op : EngineOp) (e : SyncQueueRow)
    (he : e ∈ s.db.sync_queue)
    (hp : ∃ r, r ∈ (applyOp s op).db.locations ∧ r.id = e.record_id ∧ r.synced = 0) :
    e ∈ (applyOp s op).db.sync_queue := by
  cases op with
  | save f =>
    show e ∈ (saveLocation s f).db.sync_queue
    unfold saveLocation
    split
    · simp only [logToDatabase_sync_queue]
      exact List.mem_append_left _ he
    · exact he
  | syncT => exact no_pending_removal_sync s e he hp
  | statsT => exact he
  | clearT =>
    have hcd : applyOp s EngineOp.clearT = clearDatabase s := rfl
    rw [hcd] at hp ⊢
    unfold clearDatabase at hp ⊢
    by_cases hd : s.database = true
    · rw [if_pos hd] at hp
      obtain ⟨r, hr, _, _⟩ := hp
      simp at hr
    · rw [if_neg hd] at hp ⊢
      exact he
  | net b =>
    cases b with
    | true => exact no_pending_removal_sync { s with isOnline := true } e he hp
    | false => exact he

/-- C3: the pairing invariant holds in every state reachable from a
freshly initialized engine by any sequence of engine operations
(capture, sync trigger, stats read, purge, connectivity transition):
every pending sample is referenced by exactly one live outbox entry, the
number of pending samples equals the number of live outbox entries
referencing pending samples, and no operation ever removes an entry
whose referenced sample remains pending — entries disappear only once
their sample is synced (or, for the purge, deleted outright). -/
theorem c3_pairing_invariant (ops : List EngineOp) :
    (∀ r ∈ (applyOps initialReady ops).db.locations, r.synced = 0 →
        countRef (applyOps initialReady ops).db.sync_queue r.id = 1) ∧
    pendingCount (applyOps initialReady ops).db =
      refPendingCount (applyOps initialReady ops).db ∧
    (∀ op : EngineOp, ∀ e ∈ (applyOps initialReady ops).db.sync_queue,
        (∃ r, r ∈ (applyOp (applyOps initialReady ops) op).db.locations ∧
            r.id = e.record_id ∧ r.synced = 0) →
        e ∈ (applyOp (applyOps initialReady ops) op).db.sync_queue) := by
  have h := inv_applyOps initialReady ops inv_initialReady
  exact ⟨h.pending_one, pending_eq_refPending _ h,
    fun op e he hp => no_pending_removal _ op e he hp⟩

theorem c3_pairing_invariant_witness :
    (⟨1, fix1.latitude, fix1.longitude, fix1.accuracy, fix1.altitude, fix1.speed,
        fix1.heading, fix1.timestamp, 0⟩ : LocationRow) ∈
      (applyOps initialReady [EngineOp.save fix1]).db.locations ∧
    countRef (applyOps initialReady [EngineOp.save fix1]).db.sync_queue 1 = 1 :=
  ⟨by simp [applyOps, applyOp, saveLocation, initialReady, initDatabase,
      initialAppState, logToDatabase, emptyDB],
   (c3_pairing_invariant [EngineOp.save fix1]).1
     ⟨1, fix1.latitude, fix1.longitude, fix1.accuracy, fix1.altitude, fix1.speed,
       fix1.heading, fix1.timestamp, 0⟩
     (by simp [applyOps, applyOp, saveLocation, initialReady, initDatabase,
        initialAppState, logToDatabase, emptyDB])
     rfl⟩

end Mozility
